import Mathlib

/-!
# Event Registration Service — verification of the specification

Shallow embedding of the event-registration routes of the Seneca Science
Club backend (Express + Prisma).  The persistent store (Prisma tables for
`Event`, `User`, `EventRegistration`, `ContactMessage`) is modelled as
explicit lists in insertion order; `prisma.x.findUnique` / `findFirst`
become `List.find?`, `create` appends a row with a fresh id, and
`update ... increment` maps over the rows.  HTTP outcomes are modelled by
explicit result types (`NotFound` ↦ 404, `CapacityExceeded` /
`AlreadyRegistered` ↦ 400, `AuthorizationError` ↦ 403).

The `POST /events/:id/register` handler performs its `await`ed store
operations in two blocks: a read-only prefix (find event, capacity check,
find user, find existing registration) followed by a write suffix (create
user if new, create registration, increment `currentCapacity`).  The
embedding mirrors that split: `registerCheckPhase` is the read prefix,
`registerCommitPhase` the write suffix, and the sequential handler
`register` is their composition on one store.  Interleaved executions of
two concurrent requests are expressed by running both check phases on the
same initial store before either commit phase runs.
-/

/-- A row of the Prisma `Event` table; only the fields the registration
workflow reads or writes are carried.  `maxCapacity` is `none` when the
column is NULL (no ceiling).  The handler's capacity test
`event.maxCapacity && event.currentCapacity >= event.maxCapacity` uses
JavaScript truthiness, under which both NULL and `0` are falsy; see
`capacityFull`. -/
structure Event where
  id : Nat
  maxCapacity : Option Nat
  currentCapacity : Nat
deriving Repr, DecidableEq

/-- A row of the Prisma `User` table (participants are `User` rows created
lazily by registration).  `password` for lazily created users is the
`temp-password-...` placeholder the handler generates. -/
structure User where
  id : Nat
  email : String
  senecaId : String
  firstName : String
  lastName : String
  program : String
  year : Nat
  password : String
deriving Repr, DecidableEq

/-- A row of the Prisma `EventRegistration` table.  `createdAt` is the
creation timestamp used by the `orderBy: createdAt asc` projection. -/
structure Registration where
  id : Nat
  userId : Nat
  eventId : Nat
  createdAt : Nat
deriving Repr, DecidableEq

/-- The persistent store: the three tables in row-insertion order, the
auto-increment id counters, and a logical clock supplying `createdAt`
timestamps. -/
structure Store where
  events : List Event
  users : List User
  registrations : List Registration
  nextUserId : Nat
  nextRegId : Nat
  now : Nat
deriving Repr, DecidableEq

/-- Domain errors of the register operation: `NotFound` is returned as
HTTP 404, `CapacityExceeded` and `AlreadyRegistered` as HTTP 400. -/
inductive RegisterError where
  | NotFound
  | CapacityExceeded
  | AlreadyRegistered
deriving Repr, DecidableEq

/-- The validated request body of `POST /events/:id/register`:
`{name, email, senecaId, program, year}`. -/
structure RegistrationInfo where
  name : String
  email : String
  senecaId : String
  program : String
  year : Nat
deriving Repr, DecidableEq

/-- `event.maxCapacity && event.currentCapacity >= event.maxCapacity`:
with JavaScript truthiness a NULL (`none`) or zero ceiling short-circuits
the conjunction to falsy, so only a positive ceiling already reached makes
the handler reject with `CapacityExceeded`. -/
def capacityFull (e : Event) : Bool :=
  match e.maxCapacity with
  | none => false
  | some m => m != 0 && m ≤ e.currentCapacity

/-- Outcome of the read-only prefix of the register handler: a domain
error, an existing user id to register, or the decision to create a new
user. -/
inductive ResolveResult where
  | err (e : RegisterError)
  | existing (userId : Nat)
  | fresh
deriving Repr, DecidableEq

/-- The read-only prefix of `POST /events/:id/register` (lines 189–229 of
the route file up to the writes): find the event (`404` when absent),
reject when at capacity, resolve the participant by
`findFirst {OR: [{email}, {senecaId}]}`, and for an existing participant
reject when a registration for this event already exists. -/
def registerCheckPhase (s : Store) (eventId : Nat) (info : RegistrationInfo) :
    ResolveResult :=
  match s.events.find? (fun e => e.id == eventId) with
  | none => .err .NotFound
  | some event =>
    if capacityFull event then .err .CapacityExceeded
    else
      match s.users.find? (fun u => u.email == info.email || u.senecaId == info.senecaId) with
      | some existingUser =>
        match s.registrations.find? (fun r => r.userId == existingUser.id && r.eventId == eventId) with
        | some _ => .err .AlreadyRegistered
        | none => .existing existingUser.id
      | none => .fresh

/-- The `prisma.user.create` of the register handler: a fresh `User` row
built from the request body, `firstName` being the first space-separated
word of `name` and `lastName` the remaining words re-joined (empty when
there are none).  The random `temp-password-...` suffix carries no
behaviour, so the placeholder is kept literal. -/
def newUserFrom (s : Store) (info : RegistrationInfo) : User :=
  { id := s.nextUserId
    email := info.email
    senecaId := info.senecaId
    firstName := (info.name.splitOn " ").headD ""
    lastName := String.intercalate " " (info.name.splitOn " ").tail
    program := info.program
    year := info.year
    password := "temp-password" }

/-- Append the freshly created user row to the store. -/
def addNewUser (s : Store) (info : RegistrationInfo) : Store :=
  { s with users := s.users ++ [newUserFrom s info], nextUserId := s.nextUserId + 1 }

/-- `prisma.eventRegistration.create` followed by
`prisma.event.update {currentCapacity: {increment: 1}}`: append the
registration row, then bump the matching event's counter. -/
def commitRegistration (s : Store) (eventId userId : Nat) :
    Except RegisterError Registration × Store :=
  let reg : Registration :=
    { id := s.nextRegId, userId := userId, eventId := eventId, createdAt := s.now }
  let s1 : Store :=
    { s with registrations := s.registrations ++ [reg]
             nextRegId := s.nextRegId + 1
             now := s.now + 1 }
  let s2 : Store :=
    { s1 with events := s1.events.map (fun e =>
        if e.id == eventId then { e with currentCapacity := e.currentCapacity + 1 } else e) }
  (.ok reg, s2)

/-- The write suffix of the handler, applied to the store current when the
writes run: on an error outcome nothing is written; for a fresh
participant the user row is created first (its id is the auto-increment
counter of the store at write time), then the registration is created and
the counter incremented. -/
def registerCommitPhase (s : Store) (eventId : Nat) (info : RegistrationInfo) :
    ResolveResult → Except RegisterError Registration × Store
  | .err e => (.error e, s)
  | .existing userId => commitRegistration s eventId userId
  | .fresh => commitRegistration (addNewUser s info) eventId s.nextUserId

/-- The sequential `POST /events/:id/register` handler: the read prefix
performs no writes, so the sequential execution is the commit phase run on
the same store the check phase read. -/
def register (s : Store) (eventId : Nat) (info : RegistrationInfo) :
    Except RegisterError Registration × Store :=
  registerCommitPhase s eventId info (registerCheckPhase s eventId info)

/-- Failure of an admin-gated route: returned as HTTP 403. -/
inductive AuthError where
  | AuthorizationError
deriving Repr, DecidableEq

/-- One entry of the `GET /events/:id/registrations` response: the
registration row joined (`include: {user: {select: ...}}`) with the
selected fields of its user. -/
structure RegistrationView where
  id : Nat
  userId : Nat
  eventId : Nat
  createdAt : Nat
  firstName : String
  lastName : String
  email : String
  program : String
  year : Nat
deriving Repr, DecidableEq

/-- The registration row underlying a response entry. -/
def RegistrationView.toReg (v : RegistrationView) : Registration :=
  { id := v.id, userId := v.userId, eventId := v.eventId, createdAt := v.createdAt }

/-- The `orderBy: {createdAt: 'asc'}` comparison. -/
def regLE (a b : Registration) : Prop := a.createdAt ≤ b.createdAt

instance : DecidableRel regLE := fun a b => Nat.decLe a.createdAt b.createdAt

instance : IsTotal Registration regLE := ⟨fun a b => Nat.le_total a.createdAt b.createdAt⟩

instance : IsTrans Registration regLE := ⟨fun _ _ _ => Nat.le_trans⟩

/-- The `include: {user: ...}` join of one registration row with its user
row.  The `userId` column is a foreign key, so the referenced user exists
in any store the database accepts; the `getD` fallback row only keeps the
function total. -/
def viewOf (s : Store) (r : Registration) : RegistrationView :=
  let u := (s.users.find? (fun u => u.id == r.userId)).getD
    { id := 0, email := "", senecaId := "", firstName := "", lastName := ""
      program := "", year := 0, password := "" }
  { id := r.id, userId := r.userId, eventId := r.eventId, createdAt := r.createdAt
    firstName := u.firstName, lastName := u.lastName, email := u.email
    program := u.program, year := u.year }

/-- The `GET /events/:id/registrations` handler: reject non-admin callers
with 403 before touching the store; otherwise return every registration of
the event, joined with its user and ordered by `createdAt` ascending.  No
event-existence check is performed. -/
def listRegistrations (s : Store) (isAdmin : Bool) (eventId : Nat) :
    Except AuthError (List RegistrationView) :=
  if isAdmin then
    .ok (((s.registrations.filter (fun r => r.eventId == eventId)).insertionSort regLE).map
      (viewOf s))
  else
    .error .AuthorizationError

/-- The parts of a `PUT /events/:id` request body that bear on the
capacity fields.  The route validates only `title`, `description`, `date`
and `category` and then passes `req.body` wholesale as the update `data`,
so a body may set `maxCapacity` (to any value, NULL included) or
`currentCapacity`; `none` means the field is absent from the body.  Fields
with no effect on capacity are omitted from the model. -/
structure EventUpdateBody where
  maxCapacity : Option (Option Nat)
  currentCapacity : Option Nat
deriving Repr, DecidableEq

/-- Overwrite exactly the columns present in the body. -/
def applyEventUpdate (e : Event) (b : EventUpdateBody) : Event :=
  { e with maxCapacity := b.maxCapacity.getD e.maxCapacity
           currentCapacity := b.currentCapacity.getD e.currentCapacity }

/-- The `PUT /events/:id` handler: admin gate, then
`prisma.event.update {where: {id}, data: req.body}` with no capacity
check.  (When no row has the id, Prisma throws and the handler answers
500 with the rows unchanged; the map likewise changes nothing.) -/
def updateEvent (s : Store) (isAdmin : Bool) (eventId : Nat) (b : EventUpdateBody) :
    Except AuthError Unit × Store :=
  if isAdmin then
    (.ok (), { s with events := s.events.map (fun e =>
        if e.id == eventId then applyEventUpdate e b else e) })
  else
    (.error .AuthorizationError, s)

/-- The data-model invariant of §3: when the ceiling column is set,
`currentCapacity ≤ maxCapacity`. -/
def eventCapacityOk (e : Event) : Bool :=
  match e.maxCapacity with
  | none => true
  | some m => e.currentCapacity ≤ m

/-- The invariant over the whole `Event` table. -/
def storeCapacityOk (s : Store) : Bool :=
  s.events.all eventCapacityOk

/-- A row of the Prisma `ContactMessage` table. -/
structure ContactMessage where
  id : Nat
  name : String
  email : String
  subject : String
  message : String
deriving Repr, DecidableEq

/-- The contact-form store: the table, its id counter, and the outbox of
notification emails the SMTP transporter accepted (one subject line per
delivered mail). -/
structure ContactStore where
  messages : List ContactMessage
  nextId : Nat
  outbox : List String
deriving Repr, DecidableEq

/-- Response of `POST /contact`: 400 on validation failure, else 201 with
the stored record's id. -/
inductive ContactResponse where
  | validationFailed
  | created (id : Nat)
deriving Repr, DecidableEq

/-- The `POST /contact` handler.  `valid` is the outcome of the
express-validator chain (library code, treated as an oracle); `emailOk`
is whether the SMTP collaborator accepts the notification.  After the
record is persisted the `sendMail` call sits in its own try/catch whose
handler only logs, so a refused mail (`emailOk = false`) neither removes
the record nor changes the 201 response. -/
def submitContact (s : ContactStore) (valid : Bool)
    (name email subject message : String) (emailOk : Bool) :
    ContactResponse × ContactStore :=
  if valid then
    let cm : ContactMessage :=
      { id := s.nextId, name := name, email := email, subject := subject, message := message }
    let s1 : ContactStore :=
      { s with messages := s.messages ++ [cm], nextId := s.nextId + 1 }
    let s2 : ContactStore :=
      if emailOk then { s1 with outbox := s1.outbox ++ [subject] } else s1
    (.created cm.id, s2)
  else
    (.validationFailed, s)

/-! ## Concrete fixtures used by witnesses and counterexamples -/

/-- A participant request body. -/
def infoAlice : RegistrationInfo :=
  { name := "Alice Anderson", email := "alice@myseneca.ca", senecaId := "A100"
    program := "Biology", year := 2 }

/-- A second, distinct participant request body. -/
def infoBob : RegistrationInfo :=
  { name := "Bob Brown", email := "bob@myseneca.ca", senecaId := "B200"
    program := "Physics", year := 3 }

/-- An empty store. -/
def emptyStore : Store :=
  { events := [], users := [], registrations := [], nextUserId := 0, nextRegId := 0, now := 0 }

/-- A store holding one open event with a ceiling of one seat. -/
def oneSeatStore : Store :=
  { events := [{ id := 0, maxCapacity := some 1, currentCapacity := 0 }]
    users := [], registrations := [], nextUserId := 0, nextRegId := 0, now := 0 }

/-! ## C1 — capacity under two concurrent registrations

The handler runs its store operations as separate `await`s with no
transaction or row lock, so the scheduler may interleave two requests.
The schedule modelled below is: request A runs its read prefix, request B
runs its read prefix (both see the initial store — A has written nothing
yet), then A commits its writes, then B commits its writes.  Every step
inside each phase respects program order, so this is a legal interleaving
of the two handler executions. -/

/-- State after request A's writes: A checked and committed first. -/
def raceMid : Except RegisterError Registration × Store :=
  registerCommitPhase oneSeatStore 0 infoAlice (registerCheckPhase oneSeatStore 0 infoAlice)

/-- Final state: request B's decision was made from the initial store
(before A's writes landed), and its writes run after A's. -/
def raceFinal : Except RegisterError Registration × Store :=
  registerCommitPhase raceMid.2 0 infoBob (registerCheckPhase oneSeatStore 0 infoBob)

/-- Claim C1: with a ceiling of 1 and two concurrent registration
attempts, both capacity checks read `currentCapacity = 0`, both requests
succeed, and the recorded count reaches 2 > 1 — the code over-books,
contradicting the claimed exactly-C-succeed guarantee. -/
theorem register_race_overbooks :
    raceMid.1 = Except.ok { id := 0, userId := 0, eventId := 0, createdAt := 0 } ∧
    raceFinal.1 = Except.ok { id := 1, userId := 1, eventId := 0, createdAt := 1 } ∧
    raceFinal.2.events = [{ id := 0, maxCapacity := some 1, currentCapacity := 2 }] ∧
    storeCapacityOk raceFinal.2 = false :=
  ⟨rfl, rfl, rfl, rfl⟩

/-! ## C2 — the capacity invariant under the service's operations -/

/-- A store satisfying the invariant: one uncapped event with two
registrations already counted. -/
def uncappedStore : Store :=
  { events := [{ id := 0, maxCapacity := none, currentCapacity := 2 }]
    users := [], registrations := [], nextUserId := 0, nextRegId := 0, now := 0 }

/-- An admin `PUT /events/:id` body setting the ceiling to 1. -/
def lowerCeilingBody : EventUpdateBody :=
  { maxCapacity := some (some 1), currentCapacity := none }

/-- A store whose event has a ceiling of zero (representable via the
unchecked update; creation validates `min: 1`).  The invariant holds:
`0 ≤ 0`. -/
def zeroCeilingStore : Store :=
  { events := [{ id := 0, maxCapacity := some 0, currentCapacity := 0 }]
    users := [], registrations := [], nextUserId := 0, nextRegId := 0, now := 0 }

/-- Claim C2, counterexample: the administrative update writes the request
body with no capacity check, so lowering `maxCapacity` to 1 below a
`currentCapacity` of 2 succeeds and breaks the invariant; and a zero
ceiling is falsy in the handler's capacity test, so `register` skips the
check and pushes `currentCapacity` to 1 > 0.  Both operations break the
invariant the claim says every operation preserves. -/
theorem capacity_invariant_not_preserved :
    storeCapacityOk uncappedStore = true ∧
    (updateEvent uncappedStore true 0 lowerCeilingBody).1 = Except.ok () ∧
    storeCapacityOk (updateEvent uncappedStore true 0 lowerCeilingBody).2 = false ∧
    storeCapacityOk zeroCeilingStore = true ∧
    (register zeroCeilingStore 0 infoAlice).1 =
      Except.ok { id := 0, userId := 0, eventId := 0, createdAt := 0 } ∧
    storeCapacityOk (register zeroCeilingStore 0 infoAlice).2 = false :=
  ⟨rfl, rfl, rfl, rfl, rfl, rfl⟩

/-! ## C5 — registering for a missing event -/

/-- Claim C5: when no event row carries the requested id, `register`
returns `NotFound` (404) and the store it returns is the input store —
no user row and no registration row is created. -/
theorem register_missing_event_unchanged (s : Store) (eventId : Nat)
    (info : RegistrationInfo)
    (h : s.events.find? (fun e => e.id == eventId) = none) :
    register s eventId info = (.error .NotFound, s) := by
  simp [register, registerCheckPhase, h, registerCommitPhase]

/-- Witness for C5: the empty store has no event 0, and the call fails
with `NotFound` leaving the store untouched. -/
theorem register_missing_event_unchanged_witness :
    emptyStore.events.find? (fun e => e.id == 0) = none ∧
    register emptyStore 0 infoAlice = (.error .NotFound, emptyStore) :=
  ⟨rfl, register_missing_event_unchanged emptyStore 0 infoAlice rfl⟩

/-! ## C9 — notification failure is silent -/

/-- Claim C9: once the contact record is persisted, the response is 201
with the stored record's id whether or not the SMTP send succeeds; the
persisted rows are identical in both runs, so a notification failure
neither rolls the record back nor reaches the caller.  (`valid = true`
selects the runs that pass the express-validator chain.) -/
theorem contact_notification_failure_silent (s : ContactStore)
    (name email subject message : String) :
    (submitContact s true name email subject message true).1 = .created s.nextId ∧
    (submitContact s true name email subject message false).1 = .created s.nextId ∧
    (submitContact s true name email subject message true).2.messages =
      s.messages ++ [{ id := s.nextId, name := name, email := email
                       subject := subject, message := message }] ∧
    (submitContact s true name email subject message false).2.messages =
      (submitContact s true name email subject message true).2.messages := by
  simp [submitContact]

/-! ## C3 — order of the precondition checks -/

/-- Claim C3: the handler checks existence first (404), then capacity
(`CapacityExceeded`), then resolves the participant and checks for a
duplicate registration (`AlreadyRegistered`).  In particular a full event
answers `CapacityExceeded` even when the participant is already
registered, because the capacity test precedes the duplicate test. -/
theorem register_precondition_order (s : Store) (eventId : Nat)
    (info : RegistrationInfo) :
    (s.events.find? (fun e => e.id == eventId) = none →
      (register s eventId info).1 = .error .NotFound) ∧
    (∀ ev, s.events.find? (fun e => e.id == eventId) = some ev →
      capacityFull ev = true →
      (register s eventId info).1 = .error .CapacityExceeded) ∧
    (∀ ev u r0, s.events.find? (fun e => e.id == eventId) = some ev →
      capacityFull ev = false →
      s.users.find? (fun u => u.email == info.email || u.senecaId == info.senecaId) = some u →
      s.registrations.find? (fun r => r.userId == u.id && r.eventId == eventId) = some r0 →
      (register s eventId info).1 = .error .AlreadyRegistered) := by
  refine ⟨fun h => ?_, fun ev hev hfull => ?_, fun ev u r0 hev hfull hu hr => ?_⟩
  · simp [register, registerCheckPhase, h, registerCommitPhase]
  · simp [register, registerCheckPhase, hev, hfull, registerCommitPhase]
  · simp [register, registerCheckPhase, hev, hfull, hu, hr, registerCommitPhase]

/-- A one-seat event already holding one counted registration: full. -/
def fullStore : Store :=
  { events := [{ id := 0, maxCapacity := some 1, currentCapacity := 1 }]
    users := [{ id := 0, email := "alice@myseneca.ca", senecaId := "A100"
                firstName := "Alice", lastName := "Anderson", program := "Biology"
                year := 2, password := "temp-password" }]
    registrations := [{ id := 0, userId := 0, eventId := 0, createdAt := 0 }]
    nextUserId := 1, nextRegId := 1, now := 1 }

/-- Witness for C3: in `fullStore` Alice is already registered AND the
event is full; the handler answers `CapacityExceeded`, not
`AlreadyRegistered`. -/
theorem register_precondition_order_witness :
    fullStore.events.find? (fun e => e.id == 0) =
      some { id := 0, maxCapacity := some 1, currentCapacity := 1 } ∧
    capacityFull { id := 0, maxCapacity := some 1, currentCapacity := 1 } = true ∧
    (register fullStore 0 infoAlice).1 = .error .CapacityExceeded :=
  ⟨rfl, rfl,
    (register_precondition_order fullStore 0 infoAlice).2.1
      { id := 0, maxCapacity := some 1, currentCapacity := 1 } rfl rfl⟩

/-! ## C4 — effect of a successful registration -/

/-- Explicit form of the write suffix: the created registration row and
the stored state it leaves. -/
theorem commitRegistration_eq (s : Store) (eventId userId : Nat) :
    commitRegistration s eventId userId =
      (Except.ok { id := s.nextRegId, userId := userId, eventId := eventId
                   createdAt := s.now },
       { events := s.events.map (fun e =>
           if e.id == eventId then { e with currentCapacity := e.currentCapacity + 1 }
           else e)
         users := s.users
         registrations := s.registrations ++
           [{ id := s.nextRegId, userId := userId, eventId := eventId, createdAt := s.now }]
         nextUserId := s.nextUserId
         nextRegId := s.nextRegId + 1
         now := s.now + 1 }) := rfl

/-- Claim C4: a successful `register` appends exactly one registration row
(linking the event to a user resolved by email-or-senecaId match, present
in the final store), removes nothing, and increments `currentCapacity` of
exactly the matching event rows by one, leaving every other row as it
was. -/
theorem register_success_effect (s : Store) (eventId : Nat)
    (info : RegistrationInfo) (reg : Registration) (s' : Store)
    (h : register s eventId info = (.ok reg, s')) :
    s'.registrations = s.registrations ++ [reg] ∧
    reg.eventId = eventId ∧
    (∃ u, u ∈ s'.users ∧ u.id = reg.userId ∧
      (u.email = info.email ∨ u.senecaId = info.senecaId)) ∧
    s'.events = s.events.map (fun e =>
      if e.id == eventId then { e with currentCapacity := e.currentCapacity + 1 }
      else e) := by
  unfold register registerCheckPhase at h
  cases hf : s.events.find? (fun e => e.id == eventId) with
  | none => simp only [hf] at h; simp [registerCommitPhase] at h
  | some ev =>
    simp only [hf] at h
    cases hfull : capacityFull ev with
    | true => simp [hfull, registerCommitPhase] at h
    | false =>
      simp only [hfull, Bool.false_eq_true, if_false] at h
      cases hu : s.users.find? (fun u => u.email == info.email || u.senecaId == info.senecaId) with
      | some u =>
        simp only [hu] at h
        cases hr : s.registrations.find? (fun r => r.userId == u.id && r.eventId == eventId) with
        | some r0 => simp [hr, registerCommitPhase] at h
        | none =>
          simp only [hr] at h
          rw [show registerCommitPhase s eventId info (.existing u.id) =
                commitRegistration s eventId u.id from rfl,
              commitRegistration_eq, Prod.mk.injEq] at h
          obtain ⟨h1, h2⟩ := h
          injection h1 with h1
          subst h1; subst h2
          refine ⟨rfl, rfl, ⟨u, List.mem_of_find?_eq_some hu, rfl, ?_⟩, rfl⟩
          have := List.find?_some hu
          simpa using this
      | none =>
        rw [hu] at h
        rw [show registerCommitPhase s eventId info .fresh =
              commitRegistration (addNewUser s info) eventId s.nextUserId from rfl,
            commitRegistration_eq, Prod.mk.injEq] at h
        obtain ⟨h1, h2⟩ := h
        injection h1 with h1
        subst h1; subst h2
        refine ⟨rfl, rfl, ⟨newUserFrom s info, ?_, rfl, Or.inl rfl⟩, rfl⟩
        show newUserFrom s info ∈ (addNewUser s info).users
        simp [addNewUser]

/-- Witness for C4: registering Alice on the one-seat store appends the
single registration row and bumps the event counter to 1. -/
theorem register_success_effect_witness :
    register oneSeatStore 0 infoAlice =
      (.ok { id := 0, userId := 0, eventId := 0, createdAt := 0 },
       (register oneSeatStore 0 infoAlice).2) ∧
    ((register oneSeatStore 0 infoAlice).2.registrations =
        oneSeatStore.registrations ++ [{ id := 0, userId := 0, eventId := 0, createdAt := 0 }] ∧
      ({ id := 0, userId := 0, eventId := 0, createdAt := 0 } : Registration).eventId = 0 ∧
      (∃ u, u ∈ (register oneSeatStore 0 infoAlice).2.users ∧
        u.id = ({ id := 0, userId := 0, eventId := 0, createdAt := 0 } : Registration).userId ∧
        (u.email = infoAlice.email ∨ u.senecaId = infoAlice.senecaId)) ∧
      (register oneSeatStore 0 infoAlice).2.events = oneSeatStore.events.map (fun e =>
        if e.id == 0 then { e with currentCapacity := e.currentCapacity + 1 } else e)) :=
  ⟨rfl, register_success_effect oneSeatStore 0 infoAlice
    { id := 0, userId := 0, eventId := 0, createdAt := 0 }
    (register oneSeatStore 0 infoAlice).2 rfl⟩

/-! ## C10 — listing registrations of a missing event -/

/-- Claim C10: `GET /events/:id/registrations` performs no event-existence
check, so for an id carried by no event an admin caller gets HTTP 200 with
the empty list (the foreign key guarantees a store accepted by the
database has no registration row for a missing event), not a 404. -/
theorem listRegistrations_missing_event_empty (s : Store) (eventId : Nat)
    (hfk : ∀ r ∈ s.registrations, ∃ e ∈ s.events, e.id = r.eventId)
    (hmiss : ∀ e ∈ s.events, e.id ≠ eventId) :
    listRegistrations s true eventId = .ok [] := by
  have hfilter : s.registrations.filter (fun r => r.eventId == eventId) = [] := by
    rw [List.filter_eq_nil_iff]
    intro r hr
    obtain ⟨e, he, heq⟩ := hfk r hr
    simp only [beq_iff_eq]
    intro hcontra
    exact hmiss e he (heq.trans hcontra)
  simp [listRegistrations, hfilter]

/-- Witness for C10: the one-seat store has no event 7 and no
registration rows, so the admin listing for event 7 is `200 []`. -/
theorem listRegistrations_missing_event_empty_witness :
    (∀ r ∈ oneSeatStore.registrations, ∃ e ∈ oneSeatStore.events, e.id = r.eventId) ∧
    (∀ e ∈ oneSeatStore.events, e.id ≠ 7) ∧
    listRegistrations oneSeatStore true 7 = .ok [] :=
  ⟨by decide, by decide,
    listRegistrations_missing_event_empty oneSeatStore 7 (by decide) (by decide)⟩

/-! ## C8 — admin gate and ordering of the registration listing -/

/-- Claim C8: without the admin capability the listing fails with
`AuthorizationError` (403) and, the handler returning before any store
access, reads nothing; with it, the response lists exactly the event's
registration rows (as a permutation of the table filter) ordered by
`createdAt` ascending. -/
theorem listRegistrations_admin_gate (s : Store) (eventId : Nat) :
    listRegistrations s false eventId = .error .AuthorizationError ∧
    ∃ l, listRegistrations s true eventId = .ok l ∧
      l.Pairwise (fun a b => a.createdAt ≤ b.createdAt) ∧
      (l.map RegistrationView.toReg).Perm
        (s.registrations.filter (fun r => r.eventId == eventId)) := by
  refine ⟨rfl, _, rfl, ?_, ?_⟩
  · have hs : List.Sorted regLE
        ((s.registrations.filter (fun r => r.eventId == eventId)).insertionSort regLE) :=
      List.sorted_insertionSort regLE _
    exact List.pairwise_map.mpr (hs.imp (fun h => h))
  · rw [List.map_map]
    have hcomp : RegistrationView.toReg ∘ viewOf s = id := funext fun r => rfl
    rw [hcomp, List.map_id]
    exact List.perm_insertionSort regLE _

/-! ## C2 (amended) — the operations that do preserve the invariant -/

/-- A check phase that did not end in an error found the event and saw it
below capacity. -/
theorem registerCheckPhase_pass {s : Store} {eventId : Nat}
    {info : RegistrationInfo} {d : ResolveResult}
    (hc : registerCheckPhase s eventId info = d)
    (hd : ∀ x, d ≠ ResolveResult.err x) :
    ∃ ev, s.events.find? (fun e => e.id == eventId) = some ev ∧
      capacityFull ev = false := by
  unfold registerCheckPhase at hc
  cases hf : s.events.find? (fun e => e.id == eventId) with
  | none => simp only [hf] at hc; exact absurd hc.symm (hd _)
  | some ev =>
    simp only [hf] at hc
    cases hfull : capacityFull ev with
    | true => simp [hfull] at hc; exact absurd hc.symm (hd _)
    | false => exact ⟨ev, rfl, hfull⟩

/-- Incrementing the counter of the (unique) found event keeps every row
below its ceiling, provided the found event was strictly below its
(positive) ceiling. -/
theorem capacityOk_map_bump (events : List Event) (eventId : Nat) (ev : Event)
    (hnodup : (events.map Event.id).Nodup)
    (hfind : events.find? (fun e => e.id == eventId) = some ev)
    (hfull : capacityFull ev = false)
    (hpos : ∀ e ∈ events, e.maxCapacity ≠ some 0)
    (hinv : events.all eventCapacityOk = true) :
    (events.map (fun e =>
      if e.id == eventId then { e with currentCapacity := e.currentCapacity + 1 }
      else e)).all eventCapacityOk = true := by
  rw [List.all_eq_true] at hinv ⊢
  intro x hx
  rw [List.mem_map] at hx
  obtain ⟨e1, he1, rfl⟩ := hx
  by_cases hid : (e1.id == eventId) = true
  · have hev_mem := List.mem_of_find?_eq_some hfind
    have hev_id : (ev.id == eventId) = true := by simpa using List.find?_some hfind
    have heq : e1 = ev := by
      refine List.inj_on_of_nodup_map hnodup he1 hev_mem ?_
      rw [beq_iff_eq] at hid hev_id
      exact hid.trans hev_id.symm
    subst heq
    rw [if_pos hid]
    unfold eventCapacityOk
    cases hm : e1.maxCapacity with
    | none => rfl
    | some m =>
      unfold capacityFull at hfull
      rw [hm] at hfull
      have hm0 : m ≠ 0 := by
        intro h0
        exact hpos e1 he1 (by rw [hm, h0])
      have hlt : e1.currentCapacity < m := by
        rw [Bool.and_eq_false_iff] at hfull
        rcases hfull with h | h
        · exact absurd (by simpa using h) hm0
        · simpa [Nat.lt_iff_add_one_le, Nat.not_le] using h
      simpa using hlt
  · rw [if_neg hid]
    exact hinv e1 he1

/-- Claim C2, amended: under sequential execution, `register` preserves
`currentCapacity ≤ maxCapacity` on every event whose ceiling is set, for
stores with distinct event ids whose set ceilings are positive (as event
creation validates); the administrative update, by contrast, does not
preserve the invariant (see the counterexample). -/
theorem register_preserves_capacity (s : Store) (eventId : Nat)
    (info : RegistrationInfo)
    (hnodup : (s.events.map Event.id).Nodup)
    (hpos : ∀ e ∈ s.events, e.maxCapacity ≠ some 0)
    (hinv : storeCapacityOk s = true) :
    storeCapacityOk (register s eventId info).2 = true := by
  unfold register
  cases hc : registerCheckPhase s eventId info with
  | err e => simpa [registerCommitPhase] using hinv
  | existing uid =>
    obtain ⟨ev, hf, hfull⟩ :=
      registerCheckPhase_pass hc (fun x h => ResolveResult.noConfusion h)
    show storeCapacityOk (commitRegistration s eventId uid).2 = true
    rw [commitRegistration_eq]
    exact capacityOk_map_bump s.events eventId ev hnodup hf hfull hpos hinv
  | fresh =>
    obtain ⟨ev, hf, hfull⟩ :=
      registerCheckPhase_pass hc (fun x h => ResolveResult.noConfusion h)
    show storeCapacityOk
      (commitRegistration (addNewUser s info) eventId s.nextUserId).2 = true
    rw [commitRegistration_eq]
    exact capacityOk_map_bump s.events eventId ev hnodup hf hfull hpos hinv

/-- Witness for the amended C2: the one-seat store satisfies all three
hypotheses and registering Alice keeps the invariant. -/
theorem register_preserves_capacity_witness :
    (oneSeatStore.events.map Event.id).Nodup ∧
    (∀ e ∈ oneSeatStore.events, e.maxCapacity ≠ some 0) ∧
    storeCapacityOk oneSeatStore = true ∧
    storeCapacityOk (register oneSeatStore 0 infoBob).2 = true :=
  ⟨by decide, by decide, rfl,
    register_preserves_capacity oneSeatStore 0 infoBob (by decide) (by decide) rfl⟩

/-! ## C6 — a second registration for the same identity -/

/-- When every precondition stage finds its row — event present, below
capacity, participant resolved, an existing registration for the pair —
the handler answers `AlreadyRegistered` and writes nothing. -/
theorem register_already (s : Store) (eventId : Nat) (info : RegistrationInfo)
    (ev : Event) (u : User)
    (hf : s.events.find? (fun e => e.id == eventId) = some ev)
    (hfull : capacityFull ev = false)
    (hu : s.users.find? (fun x => x.email == info.email || x.senecaId == info.senecaId) = some u)
    (hr : (s.registrations.find? (fun r => r.userId == u.id && r.eventId == eventId)).isSome = true) :
    register s eventId info = (.error .AlreadyRegistered, s) := by
  obtain ⟨r0, hr0⟩ := Option.isSome_iff_exists.mp hr
  simp [register, registerCheckPhase, hf, hfull, hu, hr0, registerCommitPhase]

/-- The capacity increment does not change event ids, so finding an event
after the increment finds the incremented image of the same row. -/
theorem find?_id_map_bump (events : List Event) (eventId : Nat) :
    (events.map (fun e =>
      if e.id == eventId then { e with currentCapacity := e.currentCapacity + 1 }
      else e)).find? (fun e => e.id == eventId) =
    (events.find? (fun e => e.id == eventId)).map (fun e =>
      if e.id == eventId then { e with currentCapacity := e.currentCapacity + 1 }
      else e) := by
  rw [List.find?_map]
  have hp : ((fun e : Event => e.id == eventId) ∘ (fun e =>
      if e.id == eventId then { e with currentCapacity := e.currentCapacity + 1 }
      else e)) = (fun e : Event => e.id == eventId) := by
    funext e
    by_cases hid : (e.id == eventId) = true
    · simp [Function.comp, hid]
    · simp [Function.comp, hid]
  rw [hp]

/-- A user row with the same email as the first call's body, whose
senecaId belongs to the pre-existing Bob row. -/
def infoMix : RegistrationInfo :=
  { name := "Alice Anderson", email := "alice@myseneca.ca", senecaId := "B200"
    program := "Biology", year := 2 }

/-- A pre-existing member row (Bob) that the OR-resolution of a later
request can hit. -/
def bobUser : User :=
  { id := 0, email := "bob@myseneca.ca", senecaId := "B200", firstName := "Bob"
    lastName := "Brown", program := "Physics", year := 3, password := "pw" }

/-- An uncapped event and Bob already in the member table. -/
def orStore : Store :=
  { events := [{ id := 0, maxCapacity := none, currentCapacity := 0 }]
    users := [bobUser], registrations := [], nextUserId := 1, nextRegId := 0, now := 0 }

/-- Claim C6, counterexample (two concrete runs).  Run 1: on the one-seat
event the first registration fills the event, so the second attempt with
the very same body fails with `CapacityExceeded` — not `AlreadyRegistered`
— because the capacity check precedes the duplicate check.  Run 2: Alice
registers on `orStore`; a second body with Alice's email but Bob's
senecaId resolves (first OR match in table order) to Bob, who has no
registration, so the call succeeds and a second registration row is
created — not `AlreadyRegistered` and `currentCount` changes. -/
theorem register_second_attempt_claim_fails :
    (register oneSeatStore 0 infoAlice).1 =
      Except.ok { id := 0, userId := 0, eventId := 0, createdAt := 0 } ∧
    (register (register oneSeatStore 0 infoAlice).2 0 infoAlice).1 =
      .error .CapacityExceeded ∧
    (register orStore 0 infoAlice).1 =
      Except.ok { id := 0, userId := 1, eventId := 0, createdAt := 0 } ∧
    (register (register orStore 0 infoAlice).2 0 infoMix).1 =
      Except.ok { id := 1, userId := 0, eventId := 0, createdAt := 1 } ∧
    (register (register orStore 0 infoAlice).2 0 infoMix).2.registrations.length = 2 :=
  ⟨rfl, rfl, rfl, rfl, rfl⟩

/-- Claim C6, amended: after a successful `register(E, p)`, a sequential
second call whose body has the same email AND the same senecaId fails with
`AlreadyRegistered` and leaves the store (hence `currentCount`) unchanged —
provided the event is not at its ceiling after the first call (else the
earlier capacity check answers `CapacityExceeded` first); when only one of
the two identifiers matches, the OR-resolution may pick a different
pre-existing participant and succeed. -/
theorem register_duplicate_rejected (s s' : Store) (eventId : Nat)
    (info info' : RegistrationInfo) (reg : Registration)
    (h : register s eventId info = (.ok reg, s'))
    (hemail : info'.email = info.email) (hsid : info'.senecaId = info.senecaId)
    (hcap : ∀ ev, s'.events.find? (fun e => e.id == eventId) = some ev →
      capacityFull ev = false) :
    register s' eventId info' = (.error .AlreadyRegistered, s') := by
  unfold register registerCheckPhase at h
  cases hf : s.events.find? (fun e => e.id == eventId) with
  | none => simp only [hf] at h; simp [registerCommitPhase] at h
  | some ev =>
    simp only [hf] at h
    cases hfull : capacityFull ev with
    | true => simp [hfull, registerCommitPhase] at h
    | false =>
      simp only [hfull, Bool.false_eq_true, if_false] at h
      cases hu : s.users.find? (fun u => u.email == info.email || u.senecaId == info.senecaId) with
      | some u =>
        cases hr : s.registrations.find? (fun r => r.userId == u.id && r.eventId == eventId) with
        | some r0 => simp only [hu, hr] at h; simp [registerCommitPhase] at h
        | none =>
          simp only [hu, hr] at h
          rw [show registerCommitPhase s eventId info (.existing u.id) =
                commitRegistration s eventId u.id from rfl,
              commitRegistration_eq, Prod.mk.injEq] at h
          obtain ⟨h1, h2⟩ := h
          injection h1 with h1
          subst h1
          have hevents : s'.events = s.events.map (fun e =>
              if e.id == eventId then { e with currentCapacity := e.currentCapacity + 1 }
              else e) := by rw [← h2]
          have husers : s'.users = s.users := by rw [← h2]
          have hregs : s'.registrations = s.registrations ++
              [{ id := s.nextRegId, userId := u.id, eventId := eventId
                 createdAt := s.now }] := by rw [← h2]
          have hf2 : s'.events.find? (fun e => e.id == eventId) =
              some (if ev.id == eventId then { ev with currentCapacity := ev.currentCapacity + 1 }
                    else ev) := by
            rw [hevents, find?_id_map_bump, hf]; rfl
          have hu2 : s'.users.find? (fun x =>
              x.email == info'.email || x.senecaId == info'.senecaId) = some u := by
            rw [husers, hemail, hsid]; exact hu
          have hr2 : (s'.registrations.find? (fun r =>
              r.userId == u.id && r.eventId == eventId)).isSome = true := by
            rw [hregs, List.find?_append, Option.isSome_or, hr]
            simp [List.find?_cons_of_pos]
          exact register_already s' eventId info' _ u hf2 (hcap _ hf2) hu2 hr2
      | none =>
        simp only [hu] at h
        rw [show registerCommitPhase s eventId info .fresh =
              commitRegistration (addNewUser s info) eventId s.nextUserId from rfl,
            commitRegistration_eq, Prod.mk.injEq] at h
        obtain ⟨h1, h2⟩ := h
        injection h1 with h1
        subst h1
        have hevents : s'.events = s.events.map (fun e =>
            if e.id == eventId then { e with currentCapacity := e.currentCapacity + 1 }
            else e) := by rw [← h2]; rfl
        have husers : s'.users = s.users ++ [newUserFrom s info] := by rw [← h2]; rfl
        have hregs : s'.registrations = s.registrations ++
            [{ id := s.nextRegId, userId := s.nextUserId, eventId := eventId
               createdAt := s.now }] := by rw [← h2]; rfl
        have hf2 : s'.events.find? (fun e => e.id == eventId) =
            some (if ev.id == eventId then { ev with currentCapacity := ev.currentCapacity + 1 }
                  else ev) := by
          rw [hevents, find?_id_map_bump, hf]; rfl
        have hu2 : s'.users.find? (fun x =>
            x.email == info'.email || x.senecaId == info'.senecaId) =
            some (newUserFrom s info) := by
          rw [husers, hemail, hsid, List.find?_append, hu, Option.none_or]
          exact List.find?_cons_of_pos _ (by simp [newUserFrom])
        have hr2 : (s'.registrations.find? (fun r =>
            r.userId == (newUserFrom s info).id && r.eventId == eventId)).isSome = true := by
          rw [hregs, List.find?_append, Option.isSome_or]
          have hsingle : List.find? (fun r : Registration =>
              r.userId == (newUserFrom s info).id && r.eventId == eventId)
              [{ id := s.nextRegId, userId := s.nextUserId, eventId := eventId
                 createdAt := s.now }] =
              some { id := s.nextRegId, userId := s.nextUserId, eventId := eventId
                     createdAt := s.now } := by
            apply List.find?_cons_of_pos
            simp [newUserFrom]
          rw [hsingle]
          simp
        exact register_already s' eventId info' _ (newUserFrom s info) hf2 (hcap _ hf2) hu2 hr2

/-- An event with two seats, so the first registration leaves a free
seat. -/
def twoSeatStore : Store :=
  { events := [{ id := 0, maxCapacity := some 2, currentCapacity := 0 }]
    users := [], registrations := [], nextUserId := 0, nextRegId := 0, now := 0 }

/-- Witness for the amended C6: on the two-seat event Alice registers,
the event is still below its ceiling, and her identical second attempt is
rejected with `AlreadyRegistered` leaving the store unchanged. -/
theorem register_duplicate_rejected_witness :
    register twoSeatStore 0 infoAlice =
      (.ok { id := 0, userId := 0, eventId := 0, createdAt := 0 },
       (register twoSeatStore 0 infoAlice).2) ∧
    infoAlice.email = infoAlice.email ∧ infoAlice.senecaId = infoAlice.senecaId ∧
    register (register twoSeatStore 0 infoAlice).2 0 infoAlice =
      (.error .AlreadyRegistered, (register twoSeatStore 0 infoAlice).2) := by
  refine ⟨rfl, rfl, rfl, ?_⟩
  refine register_duplicate_rejected twoSeatStore _ 0 infoAlice infoAlice _ rfl rfl rfl ?_
  intro ev hev
  have hred : (register twoSeatStore 0 infoAlice).2.events.find? (fun e => e.id == 0) =
      some { id := 0, maxCapacity := some 2, currentCapacity := 1 } := rfl
  rw [hred] at hev
  injection hev with hev
  rw [← hev]
  rfl

/-! ## C7 — round-trip between register and the listing -/

/-- A listing entry "matches the submitted participant info" when the five
selected user fields agree with the request body, `firstName`/`lastName`
compared against the handler's split of `name`. -/
def matchesInfo (info : RegistrationInfo) (v : RegistrationView) : Bool :=
  v.email == info.email && v.program == info.program && v.year == info.year &&
  v.firstName == (info.name.splitOn " ").headD "" &&
  v.lastName == String.intercalate " " (info.name.splitOn " ").tail

/-- Number of entries of the admin listing for `eventId` matching the
submitted info. -/
def matchCount (s : Store) (eventId : Nat) (info : RegistrationInfo) : Nat :=
  match listRegistrations s true eventId with
  | .ok l => l.countP (matchesInfo info)
  | .error _ => 0

/-- The listing's match count equals the count over the registration
table filtered to the event (sorting is a permutation). -/
theorem matchCount_ok (s : Store) (eventId : Nat) (info : RegistrationInfo) :
    matchCount s eventId info =
      (s.registrations.filter (fun r => r.eventId == eventId)).countP
        (fun r => matchesInfo info (viewOf s r)) := by
  show (((s.registrations.filter (fun r => r.eventId == eventId)).insertionSort
      regLE).map (viewOf s)).countP (matchesInfo info) = _
  rw [List.countP_map]
  exact (List.perm_insertionSort regLE _).countP_eq _

/-- A pre-existing member row sharing Alice's email but with her own
name, program and year. -/
def carolUser : User :=
  { id := 0, email := "alice@myseneca.ca", senecaId := "C300", firstName := "Carol"
    lastName := "Chen", program := "Chemistry", year := 4, password := "pw" }

/-- An uncapped event with Carol already in the member table. -/
def reuseStore : Store :=
  { events := [{ id := 0, maxCapacity := none, currentCapacity := 0 }]
    users := [carolUser], registrations := [], nextUserId := 1, nextRegId := 0, now := 0 }

/-- Claim C7, counterexample: Alice's registration on `reuseStore`
succeeds by resolving to Carol's existing row (matching email), whose
stored fields are not updated; the listing then shows Carol's program and
year, so zero entries match the submitted info — not exactly one. -/
theorem register_roundtrip_claim_fails :
    (register reuseStore 0 infoAlice).1 =
      Except.ok { id := 0, userId := 0, eventId := 0, createdAt := 0 } ∧
    matchCount (register reuseStore 0 infoAlice).2 0 infoAlice = 0 :=
  ⟨rfl, rfl⟩

/-- Claim C7, amended: when the submitted info matches no existing user
row (the participant is created fresh), a successful register leaves the
admin listing with exactly one entry matching the submitted info — for
stores whose user ids are below the auto-increment counter and whose
registrations reference existing users. -/
theorem register_fresh_roundtrip (s : Store) (eventId : Nat)
    (info : RegistrationInfo) (reg : Registration) (s' : Store)
    (hids : ∀ u ∈ s.users, u.id < s.nextUserId)
    (hfk : ∀ r ∈ s.registrations, ∃ u ∈ s.users, u.id = r.userId)
    (hfresh : s.users.find? (fun u => u.email == info.email || u.senecaId == info.senecaId) = none)
    (h : register s eventId info = (.ok reg, s')) :
    matchCount s' eventId info = 1 := by
  unfold register registerCheckPhase at h
  cases hf : s.events.find? (fun e => e.id == eventId) with
  | none => simp only [hf] at h; simp [registerCommitPhase] at h
  | some ev =>
    simp only [hf] at h
    cases hfull : capacityFull ev with
    | true => simp [hfull, registerCommitPhase] at h
    | false =>
      simp only [hfull, Bool.false_eq_true, if_false, hfresh] at h
      rw [show registerCommitPhase s eventId info .fresh =
            commitRegistration (addNewUser s info) eventId s.nextUserId from rfl,
          commitRegistration_eq, Prod.mk.injEq] at h
      obtain ⟨h1, h2⟩ := h
      injection h1 with h1
      subst h1
      have husers : s'.users = s.users ++ [newUserFrom s info] := by rw [← h2]; rfl
      have hregs : s'.registrations = s.registrations ++
          [{ id := s.nextRegId, userId := s.nextUserId, eventId := eventId
             createdAt := s.now }] := by rw [← h2]; rfl
      rw [matchCount_ok, hregs, List.filter_append, List.countP_append]
      have hnewfilter : List.filter (fun r : Registration => r.eventId == eventId)
          [{ id := s.nextRegId, userId := s.nextUserId, eventId := eventId
             createdAt := s.now }] =
          [{ id := s.nextRegId, userId := s.nextUserId, eventId := eventId
             createdAt := s.now }] := by simp
      rw [hnewfilter]
      have hfindnu : s'.users.find? (fun u => u.id == s.nextUserId) =
          some (newUserFrom s info) := by
        rw [husers, List.find?_append]
        have hnone : s.users.find? (fun u => u.id == s.nextUserId) = none := by
          rw [List.find?_eq_none]
          intro u humem
          have hlt := hids u humem
          simp only [beq_iff_eq]
          exact Nat.ne_of_lt hlt
        rw [hnone, Option.none_or]
        apply List.find?_cons_of_pos
        simp [newUserFrom]
      have hmatch_new : matchesInfo info (viewOf s'
          { id := s.nextRegId, userId := s.nextUserId, eventId := eventId
            createdAt := s.now }) = true := by
        unfold viewOf
        rw [hfindnu]
        simp [matchesInfo, newUserFrom]
      have hcount_new : List.countP (fun r => matchesInfo info (viewOf s' r))
          [{ id := s.nextRegId, userId := s.nextUserId, eventId := eventId
             createdAt := s.now }] = 1 := by
        simp [List.countP_cons, hmatch_new]
      have hold : List.countP (fun r => matchesInfo info (viewOf s' r))
          (s.registrations.filter (fun r => r.eventId == eventId)) = 0 := by
        rw [List.countP_eq_zero]
        intro r hrmem
        obtain ⟨u0, hu0mem, hu0id⟩ := hfk r (List.mem_of_mem_filter hrmem)
        have hpre : (s.users.find? (fun u => u.id == r.userId)).isSome = true := by
          cases hfp : s.users.find? (fun u => u.id == r.userId) with
          | some u1 => rfl
          | none =>
            have hnone := List.find?_eq_none.mp hfp u0 hu0mem
            simp [hu0id] at hnone
        obtain ⟨u1, hu1⟩ := Option.isSome_iff_exists.mp hpre
        have hfind1 : s'.users.find? (fun u => u.id == r.userId) = some u1 := by
          rw [husers, List.find?_append, hu1]; rfl
        have hu1mem : u1 ∈ s.users := List.mem_of_find?_eq_some hu1
        have hne : u1.email ≠ info.email := by
          intro hcontra
          have hnot := List.find?_eq_none.mp hfresh u1 hu1mem
          exact hnot (by simp [hcontra])
        have hfalse : matchesInfo info (viewOf s' r) = false := by
          unfold matchesInfo viewOf
          rw [hfind1]
          simp [hne]
        simp [hfalse]
      rw [hold, hcount_new]

/-- Witness for the amended C7: registering Bob (unknown to the empty
member table) on the two-seat event leaves exactly one matching listing
entry. -/
theorem register_fresh_roundtrip_witness :
    (∀ u ∈ twoSeatStore.users, u.id < twoSeatStore.nextUserId) ∧
    (∀ r ∈ twoSeatStore.registrations, ∃ u ∈ twoSeatStore.users, u.id = r.userId) ∧
    twoSeatStore.users.find? (fun u =>
      u.email == infoBob.email || u.senecaId == infoBob.senecaId) = none ∧
    matchCount (register twoSeatStore 0 infoBob).2 0 infoBob = 1 :=
  ⟨by decide, by decide, rfl,
    register_fresh_roundtrip twoSeatStore 0 infoBob
      { id := 0, userId := 0, eventId := 0, createdAt := 0 }
      (register twoSeatStore 0 infoBob).2 (by decide) (by decide) rfl rfl⟩
